import Mathlib

/-!
Shallow embedding of the antipool connection-pool manager
(src/flask/lib/python3.8/site-packages/antipool.py).

Raw database connections are identified by natural numbers handed out by
a fresh-id counter (nextId), so that identity of raw connections can be
stated.  Timestamps are integers; the Python code uses datetime.now()
and only ever compares timestamps against a retention cutoff, so any
linearly ordered time type is faithful.  Counters that are Python ints
(nbconn, refcounts, minconn, maxconn, minkeepsecs) are modelled as Int.

The driver (DBAPI module) is abstracted at the one point where the pool
inspects its behaviour: the safety-net rollback performed at release
time may raise dbapi.Error.  The release operations therefore take a
boolean rollbackRaises, true when that rollback call raised.  The Python
code catches this error (except dbapi.Error), so the Lean release
functions are total: release never propagates an error to the caller.

Two ghost fields instrument the state without changing behaviour:
checkedOut records the identities of raw read-write connections
currently handed out (the Python object does not store this multiset;
it is needed to state the bound invariants), and closed is a log of
every raw connection on which the driver-level close was invoked via
ConnectionPool._close (needed to state which code paths actually close
connections).
-/

namespace Antipool

/-- Capability variants of the connection handles: ConnectionWrapperRO
(shared read-only), ConnectionWrapperCrippled (exclusive read-only) and
ConnectionWrapper (read-write). -/
inductive HandleKind where
  | roShared
  | crippled
  | rw
deriving DecidableEq

/-- Errors raised by the wrapper classes.  The Python code raises the
single class Error with two distinct messages: the message of _getconn
(Connection already closed) and the message of ConnectionWrapperRO.commit
(You cannot commit on a read-only connection). -/
inductive WrapError where
  | alreadyClosed
  | readOnly
deriving DecidableEq

/-- Connection wrapper state: the held raw connection (None once the
handle has been released) and the capability variant fixed at creation. -/
structure Wrapper where
  conn : Option Nat
  kind : HandleKind
deriving DecidableEq

/-- ConnectionPool state.  Fields mirror the Python attributes:
pool is the idle list of (raw connection, last-released timestamp)
pairs, nbconn is _nbconn, roconn and roconnRefs are _roconn and
_roconn_refs, minconn / maxconn / minkeepsecs / disableRollback are the
configuration options, roShared is _ro_shared.  nextId, checkedOut and
closed are the modelling fields described in the module docstring. -/
structure Pool where
  pool : List (Nat × Int)
  nbconn : Int
  roconn : Option Nat
  roconnRefs : Int
  minconn : Int
  maxconn : Option Int
  minkeepsecs : Int
  disableRollback : Bool
  roShared : Bool
  nextId : Nat
  checkedOut : List Nat
  closed : List Nat
deriving DecidableEq

/-- ConnectionPool.__init__: empty pool, no read-only connection, zero
counters.  When the read-only connection is not shared (disableRo), one
of the available connections is reserved for it: maxconn is decremented
by one (the constructor then asserts that the result is positive). -/
def ConnectionPool.init (minconn : Int) (maxconn : Option Int) (minkeepsecs : Int)
    (disableRollback : Bool) (disableRo : Bool) : Pool :=
  { pool := []
    nbconn := 0
    roconn := none
    roconnRefs := 0
    minconn := minconn
    maxconn := Option.map (fun m => if disableRo then m - 1 else m) maxconn
    minkeepsecs := minkeepsecs
    disableRollback := disableRollback
    roShared := !disableRo
    nextId := 0
    checkedOut := []
    closed := [] }

/-- Loop body of ConnectionPool._scaledown: scan the idle list in order;
while the deletion budget n is positive, close every entry whose
last-released timestamp is older than the cutoff; keep the rest.
Returns (filtered_pool, closed entries). -/
def scaledownFilter (cutoff : Int) : Int → List (Nat × Int) → List (Nat × Int) × List (Nat × Int)
  | _, [] => ([], [])
  | n, item :: rest =>
    if 0 < n ∧ item.2 < cutoff then
      ((scaledownFilter cutoff (n - 1) rest).1, item :: (scaledownFilter cutoff (n - 1) rest).2)
    else
      (item :: (scaledownFilter cutoff n rest).1, (scaledownFilter cutoff n rest).2)

/-- ConnectionPool._scaledown, split into the pure computation of the
kept and closed idle entries.  The budget n is len(pool) - minconn and
the filtering loop runs only when it is positive. -/
def ConnectionPool.scaledownResult (s : Pool) (now : Int) : List (Nat × Int) × List (Nat × Int) :=
  if 0 < (s.pool.length : Int) - s.minconn then
    scaledownFilter (now - s.minkeepsecs) ((s.pool.length : Int) - s.minconn) s.pool
  else (s.pool, [])

/-- Closed entries of a scaledown run (each one went through
ConnectionPool._close and decremented _nbconn). -/
def ConnectionPool.scaledownClosed (s : Pool) (now : Int) : List (Nat × Int) :=
  (ConnectionPool.scaledownResult s now).2

/-- ConnectionPool._scaledown: replace the idle list by the filtered
one, decrement _nbconn once per closed connection, and log the closes. -/
def ConnectionPool.scaledown (s : Pool) (now : Int) : Pool :=
  { s with
    pool := (ConnectionPool.scaledownResult s now).1
    nbconn := s.nbconn - ((ConnectionPool.scaledownResult s now).2.length : Int)
    closed := s.closed ++ (ConnectionPool.scaledownResult s now).2.map Prod.fst }

/-- Body of ConnectionPool._acquire once past the guarded wait: pop the
most recently released idle connection (self._pool.pop() pops the last
list element), or create a fresh one and increment _nbconn.  The ghost
checkedOut field records the handed-out connection. -/
def ConnectionPool.acquirePop (s : Pool) : Nat × Pool :=
  match s.pool.getLast? with
  | some item =>
    (item.1, { s with pool := s.pool.dropLast, checkedOut := item.1 :: s.checkedOut })
  | none =>
    (s.nextId,
      { s with
          nbconn := s.nbconn + 1
          nextId := s.nextId + 1
          checkedOut := s.nextId :: s.checkedOut })

/-- ConnectionPool._acquire.  The guarded wait (while not pool and
nbconn == maxconn: wait) is modelled by returning none exactly when the
Python thread would block; all other calls return the handed-out raw
connection and the new pool state. -/
def ConnectionPool.acquire (s : Pool) : Option (Nat × Pool) :=
  match s.maxconn with
  | some m =>
    if s.pool = [] ∧ s.nbconn = m then none
    else some (ConnectionPool.acquirePop s)
  | none => some (ConnectionPool.acquirePop s)

/-- ConnectionPool._release.  If the safety-net rollback is enabled and
raises dbapi.Error, the connection is ditched: _nbconn is decremented,
the connection is not appended to the idle list, and the method returns
from inside the except clause, before the notify call.  Otherwise the
connection is appended to the idle list with the current timestamp,
_scaledown runs, and the condition variable is notified.  The returned
boolean records whether self._pool_lock.notify() was called.  The
dbapi.Error is caught either way, so release returns normally to the
caller on both paths. -/
def ConnectionPool.release (s : Pool) (conn : Nat) (rollbackRaises : Bool) (now : Int) :
    Pool × Bool :=
  if !s.disableRollback && rollbackRaises then
    ({ s with nbconn := s.nbconn - 1, checkedOut := s.checkedOut.erase conn }, false)
  else
    (ConnectionPool.scaledown
      { s with pool := s.pool ++ [(conn, now)], checkedOut := s.checkedOut.erase conn } now,
      true)

/-- ConnectionPool._get_connection_ro: under the read-only lock, lazily
create the shared read-only connection if absent and increment its
reference count; return the shared raw connection. -/
def ConnectionPool.getConnectionRO (s : Pool) : Nat × Pool :=
  match s.roconn with
  | some c => (c, { s with roconnRefs := s.roconnRefs + 1 })
  | none =>
    (s.nextId,
      { s with
          roconn := some s.nextId
          nextId := s.nextId + 1
          roconnRefs := s.roconnRefs + 1 })

/-- ConnectionPool._release_ro.  Releases of connections other than the
current shared one are silently ignored.  Otherwise the reference count
is decremented and the safety-net rollback attempted; if it raises, the
shared connection is ditched (slot cleared, reference count forced to
zero).  The net effect of decrement-then-force-to-zero is written
directly.  No driver-level close happens on any path. -/
def ConnectionPool.releaseRO (s : Pool) (conn : Nat) (rollbackRaises : Bool) : Pool :=
  if s.roconn = some conn then
    if !s.disableRollback && rollbackRaises then
      { s with roconn := none, roconnRefs := 0 }
    else
      { s with roconnRefs := s.roconnRefs - 1 }
  else s

/-- Outcome of the assert statements in ConnectionPool.finalize. -/
inductive AssertionFailure where
  | danglingConnections
  | unreturnedConnections
  | roRefsOutstanding
deriving DecidableEq

/-- ConnectionPool.finalize: a no-op when already finalized (asserting
that no read-write connection is outstanding); otherwise asserts that
every read-write connection has been returned and that no read-only
reference is outstanding, then closes the shared read-only connection
and every idle connection and resets the counters.  All assert
statements precede every mutation, so a failing assert (modelled as the
error result) leaves the pool state unchanged. -/
def ConnectionPool.finalize (s : Pool) : Except AssertionFailure Pool :=
  if s.pool = [] ∧ s.roconn = none then
    if s.nbconn = 0 then Except.ok s
    else Except.error AssertionFailure.danglingConnections
  else if (s.pool.length : Int) = s.nbconn then
    if s.roconnRefs = 0 then
      Except.ok { s with
        closed := s.closed ++ s.roconn.toList ++ s.pool.map Prod.fst
        roconn := none
        pool := []
        nbconn := 0 }
    else Except.error AssertionFailure.roRefsOutstanding
  else Except.error AssertionFailure.unreturnedConnections

/-- Whether a finalize result is a failed assert. -/
def isAssertionFailure (r : Except AssertionFailure Pool) : Bool :=
  match r with
  | Except.error _ => true
  | Except.ok _ => false

/-- ConnectionWrapperRO._getconn: the raw connection, or the
connection-already-closed error once the handle has been released. -/
def Wrapper.getconn (w : Wrapper) : Except WrapError Nat :=
  match w.conn with
  | none => Except.error WrapError.alreadyClosed
  | some c => Except.ok c

/-- Wrapper cursor(): delegates to the raw connection obtained through
_getconn; the result stands for the cursor created on that raw
connection. -/
def Wrapper.cursor (w : Wrapper) : Except WrapError Nat :=
  Wrapper.getconn w

/-- Wrapper commit(): ConnectionWrapper (read-write) delegates to the
raw connection via _getconn; ConnectionWrapperRO and
ConnectionWrapperCrippled raise the read-only error unconditionally,
without consulting _getconn. -/
def Wrapper.commit (w : Wrapper) : Except WrapError Nat :=
  match w.kind with
  | HandleKind.rw => Wrapper.getconn w
  | _ => Except.error WrapError.readOnly

/-- Wrapper rollback(): delegates to the raw connection via _getconn. -/
def Wrapper.rollback (w : Wrapper) : Except WrapError Nat :=
  Wrapper.getconn w

/-- Wrapper release(): _release_impl(self._getconn()) then clears the
held connection.  _release_impl routes to ConnectionPool._release_ro
for ConnectionWrapperRO and to ConnectionPool._release for
ConnectionWrapperCrippled and ConnectionWrapper. -/
def Wrapper.releaseToPool (w : Wrapper) (s : Pool) (rollbackRaises : Bool) (now : Int) :
    Except WrapError (Wrapper × Pool) :=
  match Wrapper.getconn w with
  | Except.error e => Except.error e
  | Except.ok c =>
    Except.ok ({ w with conn := none },
      match w.kind with
      | HandleKind.roShared => ConnectionPool.releaseRO s c rollbackRaises
      | _ => (ConnectionPool.release s c rollbackRaises now).1)

/-- ConnectionPool._add_cursors: the wrapper together with the
requested number of cursors created on it. -/
def ConnectionPool.addCursors (w : Wrapper) (nbcursors : Nat) :
    Wrapper × List (Except WrapError Nat) :=
  (w, List.replicate nbcursors (Wrapper.cursor w))

/-- ConnectionPool.connection_ro.  When read-only sharing is enabled
this wraps the shared connection from _get_connection_ro in a
ConnectionWrapperRO and never blocks; when sharing is disabled the
instance method is replaced by _connection_ro_crippled, which draws a
connection from the bounded read-write pool via _acquire (none when the
Python thread would block) and wraps it in a ConnectionWrapperCrippled. -/
def ConnectionPool.connectionRo (s : Pool) (nbcursors : Nat) :
    Option ((Wrapper × List (Except WrapError Nat)) × Pool) :=
  if s.roShared then
    some (ConnectionPool.addCursors
            { conn := some (ConnectionPool.getConnectionRO s).1, kind := HandleKind.roShared }
            nbcursors,
          (ConnectionPool.getConnectionRO s).2)
  else
    match ConnectionPool.acquire s with
    | none => none
    | some (c, s₂) =>
      some (ConnectionPool.addCursors { conn := some c, kind := HandleKind.crippled } nbcursors,
            s₂)

/-- ConnectionPool.connection: with readonly=True it returns
self.connection_ro(nbcursors); otherwise it acquires from the
read-write pool and wraps the raw connection in a ConnectionWrapper. -/
def ConnectionPool.connection (s : Pool) (nbcursors : Nat) (readonly : Bool) :
    Option ((Wrapper × List (Except WrapError Nat)) × Pool) :=
  if readonly then ConnectionPool.connectionRo s nbcursors
  else
    match ConnectionPool.acquire s with
    | none => none
    | some (c, s₂) =>
      some (ConnectionPool.addCursors { conn := some c, kind := HandleKind.rw } nbcursors, s₂)

/-- Iterated read-only acquisition: N successive calls to
ConnectionPool._get_connection_ro with no intervening release. -/
def acquireRoIter : Nat → Pool → Pool
  | 0, s => s
  | n + 1, s => acquireRoIter n (ConnectionPool.getConnectionRO s).2

/-- Iterated read-only release: N successive calls to
ConnectionPool._release_ro for connection c, none of whose safety-net
rollbacks raise. -/
def releaseRoIter (c : Nat) : Nat → Pool → Pool
  | 0, s => s
  | n + 1, s => releaseRoIter c n (ConnectionPool.releaseRO s c false)

/-- States of a pool reachable from construction by any interleaving of
acquisitions and releases.  The acq step fires exactly when _acquire
does not block; the rel step releases a connection that is currently
checked out (the scoped-acquisition contract of the handles), with the
driver free to raise or not raise from the safety-net rollback;  acqRO
and relRO are the shared read-only operations. -/
inductive Reachable : Pool → Prop
  | init (minconn : Int) (maxconn : Option Int) (minkeepsecs : Int)
      (disableRollback disableRo : Bool)
      (hmax : ∀ m, Option.map (fun v => if disableRo then v - 1 else v) maxconn = some m →
        0 < m) :
      Reachable (ConnectionPool.init minconn maxconn minkeepsecs disableRollback disableRo)
  | acq {s : Pool} {conn : Nat} {s₂ : Pool} :
      Reachable s → ConnectionPool.acquire s = some (conn, s₂) → Reachable s₂
  | rel {s : Pool} (conn : Nat) (rollbackRaises : Bool) (now : Int) :
      Reachable s → conn ∈ s.checkedOut →
      Reachable (ConnectionPool.release s conn rollbackRaises now).1
  | acqRO {s : Pool} :
      Reachable s → Reachable (ConnectionPool.getConnectionRO s).2
  | relRO {s : Pool} (conn : Nat) (rollbackRaises : Bool) :
      Reachable s → Reachable (ConnectionPool.releaseRO s conn rollbackRaises)

/-- Equation lemma: the scaledown loop on the empty list. -/
lemma scaledownFilter_nil (cutoff : Int) (n : Int) :
    scaledownFilter cutoff n [] = ([], []) := rfl

/-- Equation lemma: one step of the scaledown loop. -/
lemma scaledownFilter_cons (cutoff : Int) (n : Int) (a : Nat × Int) (l : List (Nat × Int)) :
    scaledownFilter cutoff n (a :: l) =
      if 0 < n ∧ a.2 < cutoff then
        ((scaledownFilter cutoff (n - 1) l).1, a :: (scaledownFilter cutoff (n - 1) l).2)
      else
        (a :: (scaledownFilter cutoff n l).1, (scaledownFilter cutoff n l).2) := rfl

/-- The kept and closed entries of the scaledown loop partition the
scanned idle list: their lengths add up. -/
lemma scaledownFilter_length (cutoff : Int) (n : Int) (l : List (Nat × Int)) :
    (scaledownFilter cutoff n l).1.length + (scaledownFilter cutoff n l).2.length = l.length := by
  induction l generalizing n with
  | nil => simp [scaledownFilter_nil]
  | cons a l ih =>
    rw [scaledownFilter_cons]
    split
    · have := ih (n - 1)
      simp only [List.length_cons]
      omega
    · have := ih n
      simp only [List.length_cons]
      omega

/-- The scaledown loop closes at most its budget n. -/
lemma scaledownFilter_closed_le (cutoff : Int) (n : Int) (l : List (Nat × Int)) :
    ((scaledownFilter cutoff n l).2.length : Int) ≤ max n 0 := by
  induction l generalizing n with
  | nil => simp [scaledownFilter_nil]
  | cons a l ih =>
    rw [scaledownFilter_cons]
    split
    · rename_i h
      have := ih (n - 1)
      simp only [List.length_cons]
      omega
    · have := ih n
      simp only
      omega

/-- The kept entries form a sublist of the scanned idle list: kept
entries are untouched and keep their order. -/
lemma scaledownFilter_sublist (cutoff : Int) (n : Int) (l : List (Nat × Int)) :
    List.Sublist (scaledownFilter cutoff n l).1 l := by
  induction l generalizing n with
  | nil => simp [scaledownFilter_nil]
  | cons a l ih =>
    rw [scaledownFilter_cons]
    split
    · exact (ih (n - 1)).cons a
    · exact (ih n).cons₂ a

/-- Every entry closed by the scaledown loop is stale: its
last-released timestamp is strictly older than the cutoff. -/
lemma scaledownFilter_closed_stale (cutoff : Int) (n : Int) (l : List (Nat × Int)) :
    ∀ x ∈ (scaledownFilter cutoff n l).2, x.2 < cutoff := by
  induction l generalizing n with
  | nil => simp [scaledownFilter_nil]
  | cons a l ih =>
    rw [scaledownFilter_cons]
    split
    · rename_i h
      intro x hx
      rcases List.mem_cons.mp hx with hx | hx
      · exact hx ▸ h.2
      · exact ih (n - 1) x hx
    · exact ih n

/-- If the final entry of the scanned list is not stale, the scaledown
loop keeps it, and keeps it in final position. -/
lemma scaledownFilter_keeps_fresh_last (cutoff : Int) (x : Nat × Int) (hx : ¬ x.2 < cutoff) :
    ∀ (n : Int) (l : List (Nat × Int)),
      ∃ ys, (scaledownFilter cutoff n (l ++ [x])).1 = ys ++ [x] := by
  intro n l
  induction l generalizing n with
  | nil =>
    refine ⟨[], ?_⟩
    rw [List.nil_append, scaledownFilter_cons,
      if_neg (by exact fun h => hx h.2), scaledownFilter_nil]
  | cons a l ih =>
    rw [List.cons_append, scaledownFilter_cons]
    split
    · exact ih (n - 1)
    · obtain ⟨ys, hys⟩ := ih n
      exact ⟨a :: ys, by simp [hys]⟩

/-- Lengths of the kept and closed parts of a scaledown run add up to
the original idle count. -/
lemma scaledownResult_length (s : Pool) (now : Int) :
    (ConnectionPool.scaledownResult s now).1.length +
      (ConnectionPool.scaledownResult s now).2.length = s.pool.length := by
  unfold ConnectionPool.scaledownResult
  split
  · exact scaledownFilter_length _ _ _
  · simp

/-- C5: the scale-down heuristic run at the end of a read-write release
closes only surplus and stale idle connections.  The kept idle list is
a sublist of the original (all other entries untouched, in order), the
number of closed connections is at most the excess over minconn, the
idle count never drops below minconn (nor below its original size),
every closed entry was last released strictly earlier than
now - minkeepsecs, and _nbconn is decremented exactly once per closed
connection. -/
theorem scaledown_correct (s : Pool) (now : Int) :
    List.Sublist (ConnectionPool.scaledown s now).pool s.pool ∧
    (ConnectionPool.scaledown s now).pool.length +
      (ConnectionPool.scaledownClosed s now).length = s.pool.length ∧
    ((ConnectionPool.scaledownClosed s now).length : Int) ≤
      max ((s.pool.length : Int) - s.minconn) 0 ∧
    min s.minconn (s.pool.length : Int) ≤ ((ConnectionPool.scaledown s now).pool.length : Int) ∧
    (∀ x ∈ ConnectionPool.scaledownClosed s now, x.2 < now - s.minkeepsecs) ∧
    (ConnectionPool.scaledown s now).nbconn =
      s.nbconn - ((ConnectionPool.scaledownClosed s now).length : Int) := by
  have hpool : (ConnectionPool.scaledown s now).pool = (ConnectionPool.scaledownResult s now).1 :=
    rfl
  have hlen := scaledownResult_length s now
  constructor
  · rw [hpool]
    unfold ConnectionPool.scaledownResult
    split
    · exact scaledownFilter_sublist _ _ _
    · exact List.Sublist.refl _
  refine ⟨by rw [hpool]; exact hlen, ?_, ?_, ?_, rfl⟩
  · unfold ConnectionPool.scaledownClosed ConnectionPool.scaledownResult
    split
    · rename_i h
      have := scaledownFilter_closed_le (now - s.minkeepsecs)
        ((s.pool.length : Int) - s.minconn) s.pool
      omega
    · simp
  · rw [hpool]
    have hle : ((ConnectionPool.scaledownResult s now).2.length : Int) ≤
        max ((s.pool.length : Int) - s.minconn) 0 := by
      unfold ConnectionPool.scaledownResult
      split
      · exact scaledownFilter_closed_le _ _ _
      · simp
    omega
  · unfold ConnectionPool.scaledownClosed ConnectionPool.scaledownResult
    split
    · exact scaledownFilter_closed_stale _ _ _
    · simp

/-- Concrete run of scaledown_correct: a pool with idle list
[(1, 0), (2, 100)], minconn 1, minkeepsecs 5 at time 100 closes the
stale surplus entry (1, 0) and decrements _nbconn accordingly. -/
def exC5 : Pool :=
  { pool := [(1, 0), (2, 100)]
    nbconn := 2
    roconn := none
    roconnRefs := 0
    minconn := 1
    maxconn := none
    minkeepsecs := 5
    disableRollback := false
    roShared := true
    nextId := 3
    checkedOut := []
    closed := [] }

/-- Witness for scaledown_correct evaluated on the pool exC5: the
closed entry (1, 0) is indeed stale and the counter equation holds. -/
theorem scaledown_correct_witness :
    ((1 : Nat), (0 : Int)).2 < 100 - exC5.minkeepsecs ∧
    (ConnectionPool.scaledown exC5 100).nbconn =
      exC5.nbconn - ((ConnectionPool.scaledownClosed exC5 100).length : Int) :=
  ⟨(scaledown_correct exC5 100).2.2.2.2.1 (1, 0) (by decide),
   (scaledown_correct exC5 100).2.2.2.2.2⟩

/-- The read-only acquisition touches only the read-only slot, its
reference count and the id counter: the read-write fields are
unchanged. -/
lemma getConnectionRO_rwfields (s : Pool) :
    (ConnectionPool.getConnectionRO s).2.checkedOut = s.checkedOut ∧
    (ConnectionPool.getConnectionRO s).2.pool = s.pool ∧
    (ConnectionPool.getConnectionRO s).2.nbconn = s.nbconn ∧
    (ConnectionPool.getConnectionRO s).2.maxconn = s.maxconn := by
  unfold ConnectionPool.getConnectionRO
  cases s.roconn <;> simp

/-- The read-only release touches only the read-only slot and its
reference count: the read-write fields are unchanged. -/
lemma releaseRO_rwfields (s : Pool) (conn : Nat) (rollbackRaises : Bool) :
    (ConnectionPool.releaseRO s conn rollbackRaises).checkedOut = s.checkedOut ∧
    (ConnectionPool.releaseRO s conn rollbackRaises).pool = s.pool ∧
    (ConnectionPool.releaseRO s conn rollbackRaises).nbconn = s.nbconn ∧
    (ConnectionPool.releaseRO s conn rollbackRaises).maxconn = s.maxconn := by
  unfold ConnectionPool.releaseRO
  split
  · split <;> simp
  · simp

/-- The counting invariant of the read-write side of the pool: _nbconn
equals the number of idle plus checked-out read-write connections, and
respects the configured maximum. -/
def RwInvariant (s : Pool) : Prop :=
  (s.checkedOut.length : Int) + (s.pool.length : Int) = s.nbconn ∧
  ∀ m, s.maxconn = some m → s.nbconn ≤ m

/-- The body of _acquire preserves the counting invariant, provided the
guarded-wait condition let it run (an idle connection exists or the
maximum is not yet reached). -/
lemma acquirePop_invariant (s : Pool) (hinv : RwInvariant s)
    (hok : ∀ m, s.maxconn = some m → ¬(s.pool = [] ∧ s.nbconn = m)) :
    RwInvariant (ConnectionPool.acquirePop s).2 := by
  obtain ⟨heq, hbound⟩ := hinv
  unfold ConnectionPool.acquirePop
  cases hl : s.pool.getLast? with
  | some item =>
    have hne : s.pool ≠ [] := by
      intro h
      rw [h] at hl
      simp at hl
    have hlen : 0 < s.pool.length := List.length_pos.mpr hne
    constructor
    · simp only [List.length_cons, List.length_dropLast]
      push_cast
      omega
    · intro m hm
      exact hbound m hm
  | none =>
    have hpe : s.pool = [] := List.getLast?_eq_none_iff.mp hl
    constructor
    · simp only [List.length_cons]
      rw [hpe] at heq ⊢
      push_cast at heq ⊢
      omega
    · intro m hm
      have h1 := hbound m hm
      have h2 := hok m hm
      simp only [not_and] at h2
      have := h2 hpe
      simp only
      omega

/-- Analysis of a successful _acquire: the result is the acquirePop
state, and the guarded-wait condition was false. -/
lemma acquire_eq {s : Pool} {conn : Nat} {s₂ : Pool}
    (h : ConnectionPool.acquire s = some (conn, s₂)) :
    s₂ = (ConnectionPool.acquirePop s).2 ∧
    ∀ m, s.maxconn = some m → ¬(s.pool = [] ∧ s.nbconn = m) := by
  rcases hmx : s.maxconn with _ | m
  · unfold ConnectionPool.acquire at h
    rw [hmx] at h
    simp only [Option.some.injEq] at h
    exact ⟨by rw [h], fun m hm => by simp [hmx] at hm⟩
  · unfold ConnectionPool.acquire at h
    rw [hmx] at h
    simp only at h
    split at h
    · exact absurd h (by simp)
    · rename_i hcond
      simp only [Option.some.injEq] at h
      refine ⟨by rw [h], fun m0 hm0 => ?_⟩
      have hmm : m = m0 := by injection hm0
      rw [← hmm]
      exact hcond

/-- Every reachable pool state satisfies the counting invariant. -/
lemma reachable_invariant {s : Pool} (h : Reachable s) : RwInvariant s := by
  induction h with
  | init minconn maxconn minkeepsecs disableRollback disableRo hmax =>
    constructor
    · simp [ConnectionPool.init]
    · intro m hm
      have : Option.map (fun v => if disableRo then v - 1 else v) maxconn = some m := hm
      simpa [ConnectionPool.init] using (hmax m this).le
  | acq hr heq ih =>
    rename_i s conn s₂
    obtain ⟨hs₂, hok⟩ := acquire_eq heq
    rw [hs₂]
    exact acquirePop_invariant s ih hok
  | rel conn rollbackRaises now hr hmem ih =>
    rename_i s
    obtain ⟨heq, hbound⟩ := ih
    have hco : 0 < s.checkedOut.length := List.length_pos.mpr (List.ne_nil_of_mem hmem)
    have her : (s.checkedOut.erase conn).length = s.checkedOut.length - 1 :=
      List.length_erase_of_mem hmem
    unfold ConnectionPool.release
    split
    · constructor
      · simp only [her]
        omega
      · intro m hm
        have := hbound m hm
        simp only
        omega
    · set s₁ : Pool :=
        { s with pool := s.pool ++ [(conn, now)], checkedOut := s.checkedOut.erase conn }
        with hs₁
      have hlen := scaledownResult_length s₁ now
      have hs₁pool : s₁.pool.length = s.pool.length + 1 := by
        simp [hs₁]
      constructor
      · show ((ConnectionPool.scaledown s₁ now).checkedOut.length : Int) +
          ((ConnectionPool.scaledown s₁ now).pool.length : Int) =
          (ConnectionPool.scaledown s₁ now).nbconn
        have h1 : (ConnectionPool.scaledown s₁ now).checkedOut = s.checkedOut.erase conn := rfl
        have h2 : (ConnectionPool.scaledown s₁ now).pool.length =
            (ConnectionPool.scaledownResult s₁ now).1.length := rfl
        have h3 : (ConnectionPool.scaledown s₁ now).nbconn =
            s.nbconn - ((ConnectionPool.scaledownResult s₁ now).2.length : Int) := rfl
        rw [h1, h2, h3, her]
        rw [hs₁pool] at hlen
        omega
      · intro m hm
        have hm0 : s.maxconn = some m := hm
        have := hbound m hm0
        have h3 : (ConnectionPool.scaledown s₁ now).nbconn =
            s.nbconn - ((ConnectionPool.scaledownResult s₁ now).2.length : Int) := rfl
        rw [h3]
        omega
  | acqRO hr ih =>
    rename_i s
    obtain ⟨h1, h2, h3, h4⟩ := getConnectionRO_rwfields s
    obtain ⟨heq, hbound⟩ := ih
    constructor
    · rw [h1, h2, h3]
      exact heq
    · intro m hm
      rw [h4] at hm
      rw [h3]
      exact hbound m hm
  | relRO conn rollbackRaises hr ih =>
    rename_i s
    obtain ⟨h1, h2, h3, h4⟩ := releaseRO_rwfields s conn rollbackRaises
    obtain ⟨heq, hbound⟩ := ih
    constructor
    · rw [h1, h2, h3]
      exact heq
    · intro m hm
      rw [h4] at hm
      rw [h3]
      exact hbound m hm

/-- C1: in every reachable state of a pool whose configured maximum is
m, the ghost multiset of checked-out read-write connections together
with the idle list accounts exactly for _nbconn, _nbconn never exceeds
m, and hence the number of simultaneously checked-out read-write
handles never exceeds m.  (maxconn here is the bound the constructor
stores: the configured max_total, less the slot reserved for the
read-only connection when sharing is disabled, so it is at most the
configured maximum.) -/
theorem reachable_rw_bound (s : Pool) (h : Reachable s) (m : Int) (hm : s.maxconn = some m) :
    (s.checkedOut.length : Int) + (s.pool.length : Int) = s.nbconn ∧
    s.nbconn ≤ m ∧ (s.checkedOut.length : Int) ≤ m := by
  obtain ⟨heq, hbound⟩ := reachable_invariant h
  have := hbound m hm
  refine ⟨heq, this, ?_⟩
  have hp : (0 : Int) ≤ (s.pool.length : Int) := Int.ofNat_nonneg _
  omega

/-- State reached from a pool constructed with maxconn 2 (read-only
sharing enabled) after one read-write acquisition. -/
def witC1 : Pool :=
  { pool := []
    nbconn := 1
    roconn := none
    roconnRefs := 0
    minconn := 5
    maxconn := some 2
    minkeepsecs := 5
    disableRollback := false
    roShared := true
    nextId := 1
    checkedOut := [0]
    closed := [] }

/-- Witness for reachable_rw_bound at the concrete reachable state
witC1 with maximum 2. -/
theorem reachable_rw_bound_witness :
    (witC1.checkedOut.length : Int) + (witC1.pool.length : Int) = witC1.nbconn ∧
    witC1.nbconn ≤ 2 ∧ (witC1.checkedOut.length : Int) ≤ 2 :=
  reachable_rw_bound witC1
    (@Reachable.acq (ConnectionPool.init 5 (some 2) 5 false false) 0 witC1
      (Reachable.init 5 (some 2) 5 false false
        (fun m hm => by simp at hm; omega))
      (by decide))
    2 rfl

/-- When the idle list is non-empty, _acquire never blocks and returns
the acquirePop result, whatever the maximum configuration. -/
lemma acquire_not_blocked (s : Pool) (hne : s.pool ≠ []) :
    ConnectionPool.acquire s = some (ConnectionPool.acquirePop s) := by
  unfold ConnectionPool.acquire
  rcases hmx : s.maxconn with _ | m
  · rfl
  · show (if s.pool = [] ∧ s.nbconn = m then none else some (ConnectionPool.acquirePop s)) = _
    rw [if_neg (fun hc => hne hc.1)]

/-- C2: a read-write release whose safety-net rollback raises the
driver error decrements _nbconn by exactly one, leaves the idle list
untouched (the ditched connection is never appended, so it can never be
handed out again), and — since the dbapi.Error is caught — returns
normally to the caller (ConnectionPool.release is total). -/
theorem release_hosed_behavior (s : Pool) (conn : Nat) (now : Int)
    (hrb : s.disableRollback = false) (hnotin : conn ∉ s.pool.map Prod.fst) :
    (ConnectionPool.release s conn true now).1.nbconn = s.nbconn - 1 ∧
    (ConnectionPool.release s conn true now).1.pool = s.pool ∧
    conn ∉ (ConnectionPool.release s conn true now).1.pool.map Prod.fst := by
  unfold ConnectionPool.release
  rw [hrb]
  exact ⟨rfl, rfl, hnotin⟩

/-- Pool state for the release_hosed_behavior witness: one checked-out
connection 0, one idle connection 3. -/
def exC2 : Pool :=
  { pool := [(3, 0)]
    nbconn := 2
    roconn := none
    roconnRefs := 0
    minconn := 5
    maxconn := some 2
    minkeepsecs := 5
    disableRollback := false
    roShared := true
    nextId := 4
    checkedOut := [0]
    closed := [] }

/-- Witness for release_hosed_behavior on exC2: a hosed release of
connection 0 at time 9. -/
theorem release_hosed_behavior_witness :
    (ConnectionPool.release exC2 0 true 9).1.nbconn = exC2.nbconn - 1 ∧
    (ConnectionPool.release exC2 0 true 9).1.pool = exC2.pool ∧
    0 ∉ (ConnectionPool.release exC2 0 true 9).1.pool.map Prod.fst :=
  release_hosed_behavior exC2 0 9 rfl (by decide)

/-- Pool state refuting the claim that every release path signals the
condition variable: maximum 1, connection 0 checked out, idle list
empty, so a second acquirer would be blocked. -/
def cex3 : Pool :=
  { pool := []
    nbconn := 1
    roconn := none
    roconnRefs := 0
    minconn := 5
    maxconn := some 1
    minkeepsecs := 5
    disableRollback := false
    roShared := true
    nextId := 1
    checkedOut := [0]
    closed := [] }

/-- C3 counterexample: releasing connection 0 of cex3 while its
safety-net rollback raises takes the ditch path, which returns from
inside the except clause before self._pool_lock.notify() is reached:
the release does not signal the condition variable, contradicting the
claim that every execution path of release signals it. -/
theorem release_hosed_not_notified_cex :
    (ConnectionPool.release cex3 0 true 5).2 = false := by decide

/-- C3 amended: a read-write release signals the condition variable
exactly on the non-ditch path.  When the safety-net rollback does not
raise (or rollback is disabled), the connection is appended to the idle
list and notify() is called; when the rollback raises, release returns
without signalling. -/
theorem release_notify_iff_not_hosed (s : Pool) (conn : Nat) (now : Int) :
    (ConnectionPool.release s conn false now).2 = true ∧
    (ConnectionPool.release { s with disableRollback := false } conn true now).2 = false ∧
    (ConnectionPool.release { s with disableRollback := true } conn true now).2 = true := by
  refine ⟨?_, rfl, rfl⟩
  unfold ConnectionPool.release
  rw [Bool.and_false]
  rfl

/-- C6: read-write acquisition is LIFO.  First, whenever the idle list
is non-empty, _acquire hands out its final entry, which is the most
recently appended (most recently released) idle connection.  Second,
releasing a connection (rollback succeeding) and immediately acquiring
returns that very connection: the fresh idle entry carries the release
timestamp, so with a non-negative retention time the scale-down sweep
cannot close it. -/
theorem acquire_lifo (s : Pool) (conn : Nat) (now : Int) (hkeep : 0 ≤ s.minkeepsecs) :
    (∀ item, s.pool.getLast? = some item →
      Option.map Prod.fst (ConnectionPool.acquire s) = some item.1) ∧
    Option.map Prod.fst
      (ConnectionPool.acquire (ConnectionPool.release s conn false now).1) = some conn := by
  constructor
  · intro item hlast
    have hne : s.pool ≠ [] := by
      intro h
      rw [h] at hlast
      simp at hlast
    rw [acquire_not_blocked s hne]
    have hpop : (ConnectionPool.acquirePop s).1 = item.1 := by
      unfold ConnectionPool.acquirePop
      rw [hlast]
    simp [hpop]
  · have hrel : ConnectionPool.release s conn false now =
        (ConnectionPool.scaledown
          { s with pool := s.pool ++ [(conn, now)], checkedOut := s.checkedOut.erase conn } now,
         true) := by
      unfold ConnectionPool.release
      rw [Bool.and_false]
      rfl
    set s₁ : Pool :=
      { s with pool := s.pool ++ [(conn, now)], checkedOut := s.checkedOut.erase conn }
      with hs₁
    have hfresh : ¬ ((conn, now) : Nat × Int).2 < now - s₁.minkeepsecs := by
      have : s₁.minkeepsecs = s.minkeepsecs := rfl
      rw [this]
      simp
      omega
    have hpool : ∃ ys, (ConnectionPool.scaledown s₁ now).pool = ys ++ [(conn, now)] := by
      show ∃ ys, (ConnectionPool.scaledownResult s₁ now).1 = ys ++ [(conn, now)]
      unfold ConnectionPool.scaledownResult
      split
      · exact scaledownFilter_keeps_fresh_last _ _ hfresh _ s.pool
      · exact ⟨s.pool, rfl⟩
    obtain ⟨ys, hys⟩ := hpool
    have hne : (ConnectionPool.scaledown s₁ now).pool ≠ [] := by
      rw [hys]
      simp
    have hlast : (ConnectionPool.scaledown s₁ now).pool.getLast? = some (conn, now) := by
      rw [hys]
      exact List.getLast?_concat _
    rw [hrel]
    rw [acquire_not_blocked _ hne]
    have hpop : (ConnectionPool.acquirePop (ConnectionPool.scaledown s₁ now)).1 = conn := by
      unfold ConnectionPool.acquirePop
      rw [hlast]
    simp [hpop]

/-- Pool state for the acquire_lifo witness: idle connection 7 released
long ago, connection 9 checked out, no configured maximum. -/
def exC6 : Pool :=
  { pool := [(7, 0)]
    nbconn := 2
    roconn := none
    roconnRefs := 0
    minconn := 5
    maxconn := none
    minkeepsecs := 5
    disableRollback := false
    roShared := true
    nextId := 10
    checkedOut := [9]
    closed := [] }

/-- Witness for acquire_lifo on exC6: acquiring pops the most recently
released idle entry 7; after releasing 9 at time 50, acquiring returns
exactly connection 9. -/
theorem acquire_lifo_witness :
    Option.map Prod.fst (ConnectionPool.acquire exC6) = some 7 ∧
    Option.map Prod.fst
      (ConnectionPool.acquire (ConnectionPool.release exC6 9 false 50).1) = some 9 :=
  ⟨(acquire_lifo exC6 9 50 (by decide)).1 (7, 0) rfl,
   (acquire_lifo exC6 9 50 (by decide)).2⟩

/-- Pool state refuting the claim that a hosed connection is closed at
release time: connection 5 is checked out read-write and connection 3
is the shared read-only connection. -/
def cex7 : Pool :=
  { pool := []
    nbconn := 1
    roconn := some 3
    roconnRefs := 1
    minconn := 5
    maxconn := none
    minkeepsecs := 5
    disableRollback := false
    roShared := true
    nextId := 6
    checkedOut := [5]
    closed := [] }

/-- C7 counterexample: when the safety-net rollback raises, neither the
read-write release of connection 5 nor the read-only release of the
shared connection 3 ever invokes the driver-level close: the close log
stays empty, contradicting the claim that the hosed connection is
closed immediately as part of the release. -/
theorem release_hosed_no_close_cex :
    (ConnectionPool.release cex7 5 true 0).1.closed = [] ∧
    (ConnectionPool.releaseRO cex7 3 true).closed = [] ∧
    (ConnectionPool.releaseRO cex7 3 true).roconn = none := by decide

/-- C7 amended: a connection marked hosed by a failing release-time
rollback is dropped from the pool bookkeeping — the read-write path
decrements _nbconn and does not return it to the idle list, the
read-only path clears the shared slot — but the driver-level close is
never invoked during the release; closes happen only in the scale-down
sweep and in finalize. -/
theorem hosed_not_closed (s : Pool) (conn : Nat) (now : Int) :
    (ConnectionPool.release { s with disableRollback := false } conn true now).1.closed =
      s.closed ∧
    (ConnectionPool.release { s with disableRollback := false } conn true now).1.pool = s.pool ∧
    (ConnectionPool.release { s with disableRollback := false } conn true now).1.nbconn =
      s.nbconn - 1 ∧
    (ConnectionPool.releaseRO { s with disableRollback := false } conn true).closed =
      s.closed := by
  refine ⟨rfl, rfl, rfl, ?_⟩
  unfold ConnectionPool.releaseRO
  split
  · rfl
  · rfl

/-- Iterated read-only acquisition on a state that already holds the
shared connection: every step returns the same raw connection and only
the reference count moves. -/
lemma acquireRoIter_shared (n : Nat) :
    ∀ (s : Pool) (c : Nat), s.roconn = some c →
      (acquireRoIter n s).roconn = some c ∧
      (acquireRoIter n s).roconnRefs = s.roconnRefs + n ∧
      (acquireRoIter n s).nextId = s.nextId ∧
      (acquireRoIter n s).closed = s.closed ∧
      (acquireRoIter n s).pool = s.pool ∧
      (acquireRoIter n s).nbconn = s.nbconn := by
  induction n with
  | zero =>
    intro s c h
    refine ⟨h, by simp [acquireRoIter], rfl, rfl, rfl, rfl⟩
  | succ k ih =>
    intro s c h
    have hstep : (ConnectionPool.getConnectionRO s).2 =
        { s with roconnRefs := s.roconnRefs + 1 } := by
      unfold ConnectionPool.getConnectionRO
      rw [h]
    have hDef : acquireRoIter (k + 1) s = acquireRoIter k (ConnectionPool.getConnectionRO s).2 :=
      rfl
    rw [hDef, hstep]
    obtain ⟨h1, h2, h3, h4, h5, h6⟩ := ih { s with roconnRefs := s.roconnRefs + 1 } c h
    refine ⟨h1, ?_, h3, h4, h5, h6⟩
    rw [h2]
    push_cast
    ring

/-- Iterated read-only release of the shared connection with the
safety-net rollback succeeding: the shared connection persists, only
the reference count moves. -/
lemma releaseRoIter_shared (n : Nat) :
    ∀ (s : Pool) (c : Nat), s.roconn = some c →
      (releaseRoIter c n s).roconn = some c ∧
      (releaseRoIter c n s).roconnRefs = s.roconnRefs - n ∧
      (releaseRoIter c n s).closed = s.closed := by
  induction n with
  | zero =>
    intro s c h
    exact ⟨h, by simp [releaseRoIter], rfl⟩
  | succ k ih =>
    intro s c h
    have hstep : ConnectionPool.releaseRO s c false =
        { s with roconnRefs := s.roconnRefs - 1 } := by
      unfold ConnectionPool.releaseRO
      rw [if_pos h, Bool.and_false]
      rfl
    have hDef : releaseRoIter c (k + 1) s =
        releaseRoIter c k (ConnectionPool.releaseRO s c false) := rfl
    rw [hDef, hstep]
    obtain ⟨h1, h2, h3⟩ := ih { s with roconnRefs := s.roconnRefs - 1 } c h
    refine ⟨h1, ?_, h3⟩
    rw [h2]
    push_cast
    ring

/-- C4: with read-only sharing, N acquisitions with no intervening
release lazily create exactly one raw connection on the first
acquisition (the id counter advances exactly once, and all N handles
share the connection stored in the slot), leaving the reference count
at N; then releasing the N references with no rollback error brings the
count back to zero without ever closing or clearing the shared raw
connection, which persists for reuse.  The read-write side is untouched
throughout. -/
theorem ro_sharing_refcount (s : Pool) (hconn : s.roconn = none) (hrefs : s.roconnRefs = 0)
    (N : Nat) (hN : 1 ≤ N) :
    (acquireRoIter N s).roconn = some s.nextId ∧
    (acquireRoIter N s).roconnRefs = (N : Int) ∧
    (acquireRoIter N s).nextId = s.nextId + 1 ∧
    (acquireRoIter N s).closed = s.closed ∧
    (acquireRoIter N s).pool = s.pool ∧
    (acquireRoIter N s).nbconn = s.nbconn ∧
    (releaseRoIter s.nextId N (acquireRoIter N s)).roconnRefs = 0 ∧
    (releaseRoIter s.nextId N (acquireRoIter N s)).roconn = some s.nextId ∧
    (releaseRoIter s.nextId N (acquireRoIter N s)).closed = s.closed := by
  obtain ⟨k, rfl⟩ : ∃ k, N = k + 1 := ⟨N - 1, by omega⟩
  have hstep : (ConnectionPool.getConnectionRO s).2 =
      { s with
          roconn := some s.nextId
          nextId := s.nextId + 1
          roconnRefs := s.roconnRefs + 1 } := by
    unfold ConnectionPool.getConnectionRO
    rw [hconn]
  have hDef : acquireRoIter (k + 1) s = acquireRoIter k (ConnectionPool.getConnectionRO s).2 :=
    rfl
  obtain ⟨h1, h2, h3, h4, h5, h6⟩ :=
    acquireRoIter_shared k
      { s with
          roconn := some s.nextId
          nextId := s.nextId + 1
          roconnRefs := s.roconnRefs + 1 }
      s.nextId rfl
  have ha1 : (acquireRoIter (k + 1) s).roconn = some s.nextId := by
    rw [hDef, hstep]
    exact h1
  have ha2 : (acquireRoIter (k + 1) s).roconnRefs = ((k + 1 : Nat) : Int) := by
    rw [hDef, hstep, h2]
    simp only [hrefs]
    push_cast
    ring
  have ha3 : (acquireRoIter (k + 1) s).nextId = s.nextId + 1 := by
    rw [hDef, hstep]
    exact h3
  have ha4 : (acquireRoIter (k + 1) s).closed = s.closed := by
    rw [hDef, hstep]
    exact h4
  have ha5 : (acquireRoIter (k + 1) s).pool = s.pool := by
    rw [hDef, hstep]
    exact h5
  have ha6 : (acquireRoIter (k + 1) s).nbconn = s.nbconn := by
    rw [hDef, hstep]
    exact h6
  obtain ⟨hr1, hr2, hr3⟩ := releaseRoIter_shared (k + 1) (acquireRoIter (k + 1) s) s.nextId ha1
  refine ⟨ha1, ha2, ha3, ha4, ha5, ha6, ?_, hr1, by rw [hr3, ha4]⟩
  rw [hr2, ha2]
  push_cast
  ring

/-- Pool constructed with no maximum and sharing enabled, for the
ro_sharing_refcount witness. -/
def exC4 : Pool := ConnectionPool.init 5 none 5 false false

/-- Witness for ro_sharing_refcount on exC4 with N = 3 read-only
acquisitions followed by 3 releases. -/
theorem ro_sharing_refcount_witness :
    (acquireRoIter 3 exC4).roconn = some exC4.nextId ∧
    (acquireRoIter 3 exC4).roconnRefs = ((3 : Nat) : Int) ∧
    (acquireRoIter 3 exC4).nextId = exC4.nextId + 1 ∧
    (acquireRoIter 3 exC4).closed = exC4.closed ∧
    (acquireRoIter 3 exC4).pool = exC4.pool ∧
    (acquireRoIter 3 exC4).nbconn = exC4.nbconn ∧
    (releaseRoIter exC4.nextId 3 (acquireRoIter 3 exC4)).roconnRefs = 0 ∧
    (releaseRoIter exC4.nextId 3 (acquireRoIter 3 exC4)).roconn = some exC4.nextId ∧
    (releaseRoIter exC4.nextId 3 (acquireRoIter 3 exC4)).closed = exC4.closed :=
  ro_sharing_refcount exC4 rfl rfl 3 (by decide)

/-- C8 counterexample: calling commit() on a released read-only handle
raises the read-only error, not the connection-already-closed error:
ConnectionWrapperRO.commit raises unconditionally without consulting
_getconn, so the error kind differs from the one the claim requires. -/
theorem released_ro_commit_cex :
    Wrapper.commit { conn := none, kind := HandleKind.roShared } ≠
      Except.error WrapError.alreadyClosed ∧
    Wrapper.commit { conn := none, kind := HandleKind.roShared } =
      Except.error WrapError.readOnly := by
  constructor
  · intro hcon
    simp [Wrapper.commit] at hcon
  · rfl

/-- C8 amended: every operation on a released handle fails and never
reaches the raw connection: cursor(), rollback() and release() fail
with the connection-already-closed error on every variant, and commit()
fails with the connection-already-closed error on read-write handles
but with the read-only error on the read-only variants (whose commit
rejects unconditionally, before the released check). -/
theorem released_handle_ops (w : Wrapper) (s : Pool) (rollbackRaises : Bool) (now : Int)
    (h : w.conn = none) :
    Wrapper.cursor w = Except.error WrapError.alreadyClosed ∧
    Wrapper.rollback w = Except.error WrapError.alreadyClosed ∧
    Wrapper.releaseToPool w s rollbackRaises now = Except.error WrapError.alreadyClosed ∧
    Wrapper.commit w =
      (match w.kind with
       | HandleKind.rw => Except.error WrapError.alreadyClosed
       | _ => Except.error WrapError.readOnly) := by
  have hget : Wrapper.getconn w = Except.error WrapError.alreadyClosed := by
    unfold Wrapper.getconn
    rw [h]
  refine ⟨hget, hget, ?_, ?_⟩
  · unfold Wrapper.releaseToPool
    rw [hget]
  · unfold Wrapper.commit
    cases w.kind <;> simp [hget]

/-- Witness for released_handle_ops on a released crippled read-only
handle against the pool exC2. -/
theorem released_handle_ops_witness :
    Wrapper.cursor { conn := none, kind := HandleKind.crippled } =
      Except.error WrapError.alreadyClosed ∧
    Wrapper.rollback { conn := none, kind := HandleKind.crippled } =
      Except.error WrapError.alreadyClosed ∧
    Wrapper.releaseToPool { conn := none, kind := HandleKind.crippled } exC2 false 0 =
      Except.error WrapError.alreadyClosed ∧
    Wrapper.commit { conn := none, kind := HandleKind.crippled } =
      (match ({ conn := none, kind := HandleKind.crippled } : Wrapper).kind with
       | HandleKind.rw => Except.error WrapError.alreadyClosed
       | _ => Except.error WrapError.readOnly) :=
  released_handle_ops { conn := none, kind := HandleKind.crippled } exC2 false 0 rfl

/-- C9: misuse errors are raised to the caller and do not touch pool
state.  Committing on a read-only handle (shared or crippled) always
raises the read-only error, whether the handle is live or already
released — w here carries an arbitrary conn field, and Wrapper.commit
is a function of the handle alone, so the pool is untouched.  Every
operation on an already-released handle (w₂) raises the
connection-already-closed error before any pool interaction.
finalize() invoked while a read-only reference is outstanding hits a
failing assert; since every assert in finalize precedes every mutation
and close, the failing result carries no state change and the in-use
connection is not closed. -/
theorem misuse_errors (w w₂ : Wrapper) (s : Pool) (rollbackRaises : Bool) (now : Int)
    (hkind : w.kind ≠ HandleKind.rw) (hconn : w₂.conn = none)
    (hrefs : s.roconnRefs ≠ 0) (hro : s.roconn ≠ none) :
    Wrapper.commit w = Except.error WrapError.readOnly ∧
    Wrapper.cursor w₂ = Except.error WrapError.alreadyClosed ∧
    Wrapper.rollback w₂ = Except.error WrapError.alreadyClosed ∧
    Wrapper.releaseToPool w₂ s rollbackRaises now = Except.error WrapError.alreadyClosed ∧
    isAssertionFailure (ConnectionPool.finalize s) = true := by
  have hget : Wrapper.getconn w₂ = Except.error WrapError.alreadyClosed := by
    unfold Wrapper.getconn
    rw [hconn]
  refine ⟨?_, hget, hget, ?_, ?_⟩
  · unfold Wrapper.commit
    cases hk : w.kind
    · rfl
    · rfl
    · exact absurd hk hkind
  · unfold Wrapper.releaseToPool
    rw [hget]
  · unfold ConnectionPool.finalize
    rw [if_neg (fun hc => hro hc.2), if_neg hrefs]
    split <;> rfl

/-- Pool with the shared read-only connection outstanding (reference
count 2) for the misuse_errors witness. -/
def exC9 : Pool :=
  { pool := [(0, 0)]
    nbconn := 1
    roconn := some 1
    roconnRefs := 2
    minconn := 5
    maxconn := none
    minkeepsecs := 5
    disableRollback := false
    roShared := true
    nextId := 2
    checkedOut := []
    closed := [] }

/-- Witness for misuse_errors on a live shared read-only handle holding
connection 1 (commit raises the read-only error while the handle is
still live), a released crippled handle, and the pool exC9. -/
theorem misuse_errors_witness :
    Wrapper.commit { conn := some 1, kind := HandleKind.roShared } =
      Except.error WrapError.readOnly ∧
    Wrapper.cursor { conn := none, kind := HandleKind.crippled } =
      Except.error WrapError.alreadyClosed ∧
    Wrapper.rollback { conn := none, kind := HandleKind.crippled } =
      Except.error WrapError.alreadyClosed ∧
    Wrapper.releaseToPool { conn := none, kind := HandleKind.crippled } exC9 false 0 =
      Except.error WrapError.alreadyClosed ∧
    isAssertionFailure (ConnectionPool.finalize exC9) = true :=
  misuse_errors { conn := some 1, kind := HandleKind.roShared }
    { conn := none, kind := HandleKind.crippled } exC9 false 0
    (by decide) rfl (by decide) (by decide)

/-- C10: the readonly flag of the public connection() entry point
delegates unconditionally to connection_ro(): for every pool state and
cursor count the two calls return identical results (same handle
variant, same cursors, same blocking behaviour) and produce identical
pool states. -/
theorem connection_readonly_delegates (s : Pool) (nbcursors : Nat) :
    ConnectionPool.connection s nbcursors true = ConnectionPool.connectionRo s nbcursors := by
  unfold ConnectionPool.connection
  rfl

end Antipool
